import Mathlib

/-!
Verification of the Nexus-Knowledge RAG backend against its specification.

The development shallowly embeds the core of the repository:
  - the LangGraph agent workflow in `src/Backend/app/agents/graph.py`
    (`retrieve_node`, `grade_documents_node`, `generative_node`),
  - the WebSocket session relay in `src/Backend/main.py` (`chat_socket`),
  - the ingestion pipeline in `src/Backend/app/core/rag_engine.py`
    (`extract_text_with_ocr`, `process_pdf`).

External collaborators (the hosted language model, the PDF loader, the OCR
engine, the vector store, the database) are passed in as explicit parameters:
a call that may raise is modelled as a function into `Option`/`Except`.
-/

/-! ## String helpers

Python substring containment (`pat in s`) and lower-casing, modelled over the
character list underlying `String` so that everything kernel-evaluates. -/

/-- Boolean test that `pat` is an initial segment of `s` (character lists). -/
def startsWithChars : List Char → List Char → Bool
  | [], _ => true
  | _ :: _, [] => false
  | p :: ps, c :: cs => p == c && startsWithChars ps cs

/-- Boolean substring containment on character lists. -/
def containsChars (pat : List Char) : List Char → Bool
  | [] => startsWithChars pat []
  | c :: cs => startsWithChars pat (c :: cs) || containsChars pat cs

/-- Python `pat in s` substring containment on strings. -/
def strContains (s pat : String) : Bool :=
  containsChars pat.data s.data

/-- Python `s.lower()` (ASCII case folding, which covers every string the
workflow compares). -/
def lowerStr (s : String) : String :=
  ⟨s.data.map Char.toLower⟩

/-- Appending strings appends their character lists: associativity. -/
theorem strAppend_assoc : ∀ (a b c : String), a ++ b ++ c = a ++ (b ++ c)
  | ⟨a⟩, ⟨b⟩, ⟨c⟩ => congrArg String.mk (List.append_assoc a b c)

/-- The empty string is a right identity for append. -/
theorem strAppend_empty : ∀ (a : String), a ++ "" = a
  | ⟨a⟩ => congrArg String.mk (List.append_nil a)

/-- The empty string is a left identity for append. -/
theorem strEmpty_append : ∀ (a : String), "" ++ a = a
  | ⟨_⟩ => rfl

/-! ## Agent workflow state (`src/Backend/app/agents/graph.py`)

`AgentState` is the TypedDict threaded through the LangGraph workflow.  A
node returns a partial update that LangGraph merges into the state; each node
below is written as the merged result, updating exactly the keys the Python
function returns. -/

/-- The `AgentState` TypedDict of `graph.py`. -/
structure AgentState where
  question : String
  documents : List String
  answer : String
  run_web_search : Bool
  deriving Repr, DecidableEq

/-- The per-chunk relevance prompt built in `grade_documents_node`. -/
def gradePrompt (question doc : String) : String :=
  "Is this document relevant to: " ++ question ++
    "? Answer only \x27yes\x27 or \x27no\x27.\nDoc: " ++ doc

/-- The `"yes" in res.lower()` test of `grade_documents_node`. -/
def yesInLower (res : String) : Bool :=
  strContains (lowerStr res) "yes"

/-- The `filtered_docs` list built by the loop of `grade_documents_node`.
`judge` is the model call `invoke_llm llm prompt`; `none` models the call
raising an exception, in which case the chunk is appended (fail-open). -/
def grade_filtered (judge : String → Option String) (st : AgentState) : List String :=
  st.documents.filter (fun doc =>
    match judge (gradePrompt st.question doc) with
    | some res => yesInLower res
    | none => true)

/-- The final value of the local variable `search` in `grade_documents_node`:
set to `True` exactly when `filtered_docs` ends up empty. -/
def grade_search_flag (judge : String → Option String) (st : AgentState) : Bool :=
  (grade_filtered judge st).isEmpty

/-- `grade_documents_node` merged into the state.  The Python function
returns the dictionary `{"documents": filtered_docs}` only, so LangGraph
leaves every other key of the state, including `run_web_search`, unchanged;
the local variable `search` is dropped. -/
def grade_documents_node (judge : String → Option String) (st : AgentState) : AgentState :=
  { st with documents := grade_filtered judge st }

/-- `retrieve_node` merged into the state: it returns
`{"documents": retrieved, "run_web_search": False}`.  `retrieved` stands for
the retriever call on the question. -/
def retrieve_node (retrieved : List String) (st : AgentState) : AgentState :=
  { st with documents := retrieved, run_web_search := false }

/-- The generation prompt built in `generative_node` from the filtered
context and the question. -/
def generatePrompt (st : AgentState) : String :=
  "Based on the following context, answer the question.\n\nContext: " ++
    String.intercalate "\n\n" st.documents ++
    "\n\nQuestion: " ++ st.question ++ "\n\nAnswer:"

/-- `generative_node` merged into the state.  `gen` is the model call;
`Except.error e` models `invoke_llm` raising an exception whose `str` is
`e`.  If an answer is already present (Python truthiness of
`state.get("answer")`: a non-empty string) the whole state is returned
untouched and no model call is made; on a model failure the answer becomes
the formatted error text. -/
def generative_node (gen : String → Except String String) (st : AgentState) : AgentState :=
  if st.answer ≠ "" then st
  else
    match gen (generatePrompt st) with
    | Except.ok response => { st with answer := response }
    | Except.error e => { st with answer := "Error: " ++ e }

/-! ## Claims C1 to C4 -/

/-- C1: if the relevance-judgment call raises for every retrieved chunk,
`grade_documents_node` keeps every chunk: the filtered list equals the input
document list and the state is returned unchanged, so judgment failures
alone can never shrink the filtered set. -/
theorem grade_fail_open (judge : String → Option String) (st : AgentState)
    (h : ∀ doc ∈ st.documents, judge (gradePrompt st.question doc) = none) :
    grade_filtered judge st = st.documents ∧
    grade_documents_node judge st = st := by
  have hfil : grade_filtered judge st = st.documents := by
    unfold grade_filtered
    apply List.filter_eq_self.mpr
    intro a ha
    simp only [h a ha]
  refine ⟨hfil, ?_⟩
  unfold grade_documents_node
  rw [hfil]

/-- Witness for C1 at a concrete state whose every judgment raises. -/
theorem grade_fail_open_witness :
    grade_documents_node (fun _ => none)
        { question := "q", documents := ["alpha", "beta"], answer := "", run_web_search := false }
      = { question := "q", documents := ["alpha", "beta"], answer := "", run_web_search := false } :=
  (grade_fail_open (fun _ => none)
    { question := "q", documents := ["alpha", "beta"], answer := "", run_web_search := false }
    (fun _ _ => rfl)).2

/-- C2: on a state whose answer field is already non-empty, `generative_node`
returns the state unchanged; the result does not depend on the model (so no
model call can influence it), and running the node twice equals running it
once. -/
theorem generate_idempotent (gen gen2 : String → Except String String)
    (st : AgentState) (h : st.answer ≠ "") :
    generative_node gen st = st ∧
    generative_node gen2 st = generative_node gen st ∧
    generative_node gen (generative_node gen st) = generative_node gen st := by
  have h1 : generative_node gen st = st := by
    unfold generative_node
    rw [if_pos h]
  have h2 : generative_node gen2 st = st := by
    unfold generative_node
    rw [if_pos h]
  exact ⟨h1, h2.trans h1.symm, by rw [h1, h1]⟩

/-- Witness for C2 at a concrete state already holding an answer. -/
theorem generate_idempotent_witness :
    generative_node (fun _ => Except.ok "fresh")
        { question := "q", documents := [], answer := "done", run_web_search := false }
      = { question := "q", documents := [], answer := "done", run_web_search := false } :=
  (generate_idempotent (fun _ => Except.ok "fresh") (fun _ => Except.error "boom")
    { question := "q", documents := [], answer := "done", run_web_search := false }
    (by decide)).1

/-- C3: at a concrete input on which grading filters every chunk out, the
code computes the local `search` flag as `True` but returns an update that
holds only the `documents` key, so the per-query state field
`run_web_search` is NOT set: it keeps the value `false` written by
`retrieve_node`, contradicting the claim that it becomes true. -/
theorem grade_web_search_flag_not_set :
    grade_filtered (fun _ => some "no")
        { question := "q", documents := ["d"], answer := "", run_web_search := false } = [] ∧
    grade_search_flag (fun _ => some "no")
        { question := "q", documents := ["d"], answer := "", run_web_search := false } = true ∧
    (grade_documents_node (fun _ => some "no")
        { question := "q", documents := ["d"], answer := "", run_web_search := false }).run_web_search
      = false := by
  decide

/-- C4: on a state with an empty answer, if the model call inside
`generative_node` raises with text `e`, the node returns normally (the
embedding is a total function, so nothing propagates) and the answer field
is the formatted error message `"Error: " ++ e` containing the exception
text. -/
theorem generate_error_recovery (gen : String → Except String String)
    (st : AgentState) (e : String)
    (h1 : st.answer = "") (h2 : gen (generatePrompt st) = Except.error e) :
    generative_node gen st = { st with answer := "Error: " ++ e } ∧
    (generative_node gen st).answer = "Error: " ++ e := by
  have hne : ¬ st.answer ≠ "" := by simp [h1]
  have hmain : generative_node gen st = { st with answer := "Error: " ++ e } := by
    unfold generative_node
    rw [if_neg hne, h2]
  exact ⟨hmain, by rw [hmain]⟩

/-- Witness for C4 at a concrete state and a model call that raises. -/
theorem generate_error_recovery_witness :
    (generative_node (fun _ => Except.error "quota exhausted")
        { question := "q", documents := ["ctx"], answer := "", run_web_search := false }).answer
      = "Error: quota exhausted" :=
  (generate_error_recovery (fun _ => Except.error "quota exhausted")
    { question := "q", documents := ["ctx"], answer := "", run_web_search := false }
    "quota exhausted" rfl rfl).2

/-! ## Session relay (`chat_socket` in `src/Backend/main.py`)

One turn of the WebSocket loop: receive a question, best-effort save a user
Message, stream the agent events forwarding `status`/`chunk` events and
accumulating chunk contents, send `end`, and best-effort save an assistant
Message when the accumulated text is non-empty.  If the stream raises, the
handler sends a single error `chunk` (the fixed rate-limit advisory when the
message indicates quota exhaustion) followed by `end`, saves nothing further,
and the `while True` loop continues. -/

/-- An event yielded by `agent_graph.astream_events`.  The handler switches
on `on_chain_start` and `on_chat_model_stream` and ignores every other
kind, collapsed here into `otherEvent`. -/
inductive StreamEvent where
  | chainStart
  | modelStream (content : String)
  | otherEvent
  deriving Repr, DecidableEq

/-- A JSON event sent to the client over the WebSocket. -/
inductive WsEvent where
  | statusEv (content : String)
  | chunkEv (content : String)
  | endEv
  deriving Repr, DecidableEq

/-- The outcome of iterating `agent_graph.astream_events` for one turn: the
stream yields `events` and then either completes normally or raises an
exception whose text is `msg`. -/
inductive TurnOutcome where
  | completes (events : List StreamEvent)
  | raises (events : List StreamEvent) (msg : String)
  deriving Repr, DecidableEq

/-- A row written to the `messages` table: role and content. -/
structure ChatMessage where
  role : String
  content : String
  deriving Repr, DecidableEq

/-- The `async for` loop body of `chat_socket`: events sent so far and the
accumulated `assistant_response`, folded over the stream events. -/
def relayStream : List StreamEvent → String → List WsEvent × String
  | [], acc => ([], acc)
  | StreamEvent.chainStart :: es, acc =>
      let r := relayStream es acc
      (WsEvent.statusEv "Thinking..." :: r.1, r.2)
  | StreamEvent.modelStream c :: es, acc =>
      if c = "" then relayStream es acc
      else
        let r := relayStream es (acc ++ c)
        (WsEvent.chunkEv c :: r.1, r.2)
  | StreamEvent.otherEvent :: es, acc => relayStream es acc

/-- The fixed rate-limit advisory text sent by `chat_socket`. -/
def rateLimitAdvisory : String :=
  "⚠️ Rate limit reached. Please wait about 60 seconds before asking another question."

/-- The `"429" in error_msg or "RESOURCE_EXHAUSTED" in error_msg` test. -/
def isRateLimitError (msg : String) : Bool :=
  strContains msg "429" || strContains msg "RESOURCE_EXHAUSTED"

/-- The result of one turn of the `chat_socket` loop: the events sent to the
client in order, the Messages persisted in order, and whether the receive
loop continues to the next turn. -/
structure TurnResult where
  sent : List WsEvent
  saved : List ChatMessage
  loopContinues : Bool
  deriving Repr, DecidableEq

/-- One turn of `chat_socket` for conversation-bound sessions.
`conversationFound` is whether the conversation row exists (the user Message
is only inserted when it does); `outcome` is the behaviour of the event
stream.  Database errors are swallowed in the source (best-effort); the
embedding models the successful write.  On an exception the handler sends
the advisory or generic error chunk then `end`; both branches fall through
to the next loop iteration. -/
def chat_socket_turn (conversationFound : Bool) (query : String)
    (outcome : TurnOutcome) : TurnResult :=
  let userSaved := if conversationFound then [ChatMessage.mk "user" query] else []
  match outcome with
  | TurnOutcome.completes events =>
      { sent := (relayStream events "").1 ++ [WsEvent.endEv]
        saved := userSaved ++
          (if (relayStream events "").2 = "" then []
           else [ChatMessage.mk "assistant" (relayStream events "").2])
        loopContinues := true }
  | TurnOutcome.raises events msg =>
      { sent := (relayStream events "").1 ++
          [WsEvent.chunkEv
            (if isRateLimitError msg then rateLimitAdvisory
             else "Error processing request: " ++ msg),
           WsEvent.endEv]
        saved := userSaved
        loopContinues := true }

/-- The `assistant_response` accumulator value at the moment the stream
stops (normally or by raising). -/
def accumulatedAnswer : TurnOutcome → String
  | TurnOutcome.completes events => (relayStream events "").2
  | TurnOutcome.raises events _ => (relayStream events "").2

/-- Events the loop body sends for a single stream event. -/
def eventOut : StreamEvent → List WsEvent
  | StreamEvent.chainStart => [WsEvent.statusEv "Thinking..."]
  | StreamEvent.modelStream c => if c = "" then [] else [WsEvent.chunkEv c]
  | StreamEvent.otherEvent => []

/-- Events the loop body sends for a whole stream. -/
def streamOuts : List StreamEvent → List WsEvent
  | [] => []
  | e :: es => eventOut e ++ streamOuts es

/-- Concatenation of the model-stream contents of a stream. -/
def contentsConcat : List StreamEvent → String
  | [] => ""
  | StreamEvent.modelStream c :: es => c ++ contentsConcat es
  | _ :: es => contentsConcat es

/-- Characterisation of the relay fold: it sends `streamOuts events` and
accumulates `contentsConcat events` onto the accumulator. -/
theorem relayStream_eq (events : List StreamEvent) :
    ∀ acc, relayStream events acc = (streamOuts events, acc ++ contentsConcat events) := by
  induction events with
  | nil => intro acc; simp [relayStream, streamOuts, contentsConcat, strAppend_empty]
  | cons e es ih =>
    intro acc
    cases e with
    | chainStart =>
      simp [relayStream, streamOuts, contentsConcat, eventOut, ih]
    | modelStream c =>
      by_cases hc : c = ""
      · subst hc
        simp [relayStream, streamOuts, contentsConcat, eventOut, ih, strEmpty_append]
      · simp [relayStream, streamOuts, contentsConcat, eventOut, ih, hc, strAppend_assoc]
    | otherEvent =>
      simp [relayStream, streamOuts, contentsConcat, eventOut, ih]

/-- Boolean test for a `chunk` event. -/
def isChunkEv : WsEvent → Bool
  | WsEvent.chunkEv _ => true
  | _ => false

/-- Boolean test for an `end` event. -/
def isEndEv : WsEvent → Bool
  | WsEvent.endEv => true
  | _ => false

/-- The loop body never sends an `end` event while iterating the stream. -/
theorem streamOuts_no_end (events : List StreamEvent) :
    (streamOuts events).filter isEndEv = [] := by
  induction events with
  | nil => rfl
  | cons e es ih =>
    cases e with
    | chainStart => simp [streamOuts, eventOut, isEndEv, ih]
    | modelStream c =>
      by_cases hc : c = "" <;> simp [streamOuts, eventOut, isEndEv, ih, hc]
    | otherEvent => simp [streamOuts, eventOut, ih]

/-- If every model-stream event of the stream carries empty content, the
loop body sends no `chunk` event. -/
theorem streamOuts_no_chunk (events : List StreamEvent)
    (h : ∀ c, StreamEvent.modelStream c ∈ events → c = "") :
    (streamOuts events).filter isChunkEv = [] := by
  induction events with
  | nil => rfl
  | cons e es ih =>
    have ih2 := ih (fun c hc => h c (List.mem_cons_of_mem _ hc))
    cases e with
    | chainStart => simp [streamOuts, eventOut, isChunkEv, ih2]
    | modelStream c =>
      have hc : c = "" := h c (List.mem_cons_self _ _)
      simp [streamOuts, eventOut, hc, ih2]
    | otherEvent => simp [streamOuts, eventOut, ih2]

/-! ## Claims C5, C6, C10 -/

/-- C5: on a turn whose workflow invocation fails with a rate-limit
condition before streaming any content, the handler sends the events
produced so far, then exactly one `chunk` event whose content is the fixed
advisory message, then exactly one `end` event, and the receive loop
continues, so the session stays open for the next question. -/
theorem rate_limit_turn (conversationFound : Bool) (query msg : String)
    (events : List StreamEvent)
    (hrl : isRateLimitError msg = true)
    (hnc : ∀ c, StreamEvent.modelStream c ∈ events → c = "") :
    (chat_socket_turn conversationFound query (TurnOutcome.raises events msg)).sent
        = streamOuts events ++ [WsEvent.chunkEv rateLimitAdvisory, WsEvent.endEv] ∧
    ((chat_socket_turn conversationFound query (TurnOutcome.raises events msg)).sent.filter
        isChunkEv) = [WsEvent.chunkEv rateLimitAdvisory] ∧
    ((chat_socket_turn conversationFound query (TurnOutcome.raises events msg)).sent.filter
        isEndEv) = [WsEvent.endEv] ∧
    (chat_socket_turn conversationFound query (TurnOutcome.raises events msg)).loopContinues
        = true := by
  have hsent : (chat_socket_turn conversationFound query (TurnOutcome.raises events msg)).sent
      = streamOuts events ++ [WsEvent.chunkEv rateLimitAdvisory, WsEvent.endEv] := by
    simp [chat_socket_turn, relayStream_eq, hrl]
  refine ⟨hsent, ?_, ?_, rfl⟩
  · rw [hsent, List.filter_append, streamOuts_no_chunk events hnc]
    rfl
  · rw [hsent, List.filter_append, streamOuts_no_end events]
    rfl

/-- Witness for C5: a turn failing with a quota error before any event. -/
theorem rate_limit_turn_witness :
    (chat_socket_turn true "hi" (TurnOutcome.raises [] "429 RESOURCE_EXHAUSTED quota")).sent
      = [WsEvent.chunkEv rateLimitAdvisory, WsEvent.endEv] :=
  (rate_limit_turn true "hi" "429 RESOURCE_EXHAUSTED quota" [] (by decide)
    (fun c hc => absurd hc (List.not_mem_nil _))).1

/-- Concatenation of the chunk-event contents of a sent event list. -/
def chunkConcat : List WsEvent → String
  | [] => ""
  | WsEvent.chunkEv c :: ws => c ++ chunkConcat ws
  | _ :: ws => chunkConcat ws

/-- Boolean test that every event of the stream is a model-stream token. -/
def allModelStream (events : List StreamEvent) : Bool :=
  events.all (fun e => match e with
    | StreamEvent.modelStream _ => true
    | _ => false)

/-- Over a stream of model tokens, the sent events are exactly the chunk
events of the non-empty tokens and their concatenation is the token
concatenation. -/
theorem streamOuts_model_tokens (events : List StreamEvent)
    (h : allModelStream events = true) :
    chunkConcat (streamOuts events) = contentsConcat events ∧
    (∀ w ∈ streamOuts events, ∃ c, w = WsEvent.chunkEv c ∧ c ≠ "") := by
  induction events with
  | nil => exact ⟨rfl, by intro w hw; exact absurd hw (List.not_mem_nil _)⟩
  | cons e es ih =>
    simp only [allModelStream, List.all_cons, Bool.and_eq_true] at h
    have ihs := ih h.2
    cases e with
    | chainStart => exact absurd h.1 (by decide)
    | modelStream c =>
      by_cases hc : c = ""
      · subst hc
        refine ⟨?_, ?_⟩
        · simpa [streamOuts, eventOut, contentsConcat, strEmpty_append] using ihs.1
        · simpa [streamOuts, eventOut] using ihs.2
      · refine ⟨?_, ?_⟩
        · simpa [streamOuts, eventOut, contentsConcat, chunkConcat, hc] using
            congrArg (fun s => c ++ s) ihs.1
        · intro w hw
          rcases (by simpa [streamOuts, eventOut, hc] using hw :
              w = WsEvent.chunkEv c ∨ w ∈ streamOuts es) with h1 | h2
          · exact ⟨c, h1, hc⟩
          · exact ihs.2 w h2
    | otherEvent => exact absurd h.1 (by decide)

/-- C6: on a successful turn over a found conversation whose stream is a
chain-start event followed by model tokens with non-empty concatenation,
the client receives one `status` event, then the chunk events of the
non-empty tokens (at least one, concatenating to the full answer), then
exactly one `end` event; and the persisted Messages of the turn are exactly
a user Message with the question and an assistant Message with the
concatenated answer, in that order. -/
theorem successful_turn_protocol (query : String) (rest : List StreamEvent)
    (hall : allModelStream rest = true)
    (hne : contentsConcat rest ≠ "") :
    (chat_socket_turn true query
        (TurnOutcome.completes (StreamEvent.chainStart :: rest))).sent
      = WsEvent.statusEv "Thinking..." :: (streamOuts rest ++ [WsEvent.endEv]) ∧
    streamOuts rest ≠ [] ∧
    (∀ w ∈ streamOuts rest, ∃ c, w = WsEvent.chunkEv c ∧ c ≠ "") ∧
    chunkConcat (streamOuts rest) = contentsConcat rest ∧
    ((streamOuts rest ++ [WsEvent.endEv]).filter isEndEv) = [WsEvent.endEv] ∧
    (chat_socket_turn true query
        (TurnOutcome.completes (StreamEvent.chainStart :: rest))).saved
      = [ChatMessage.mk "user" query, ChatMessage.mk "assistant" (contentsConcat rest)] := by
  have hmod := streamOuts_model_tokens rest hall
  have hacc : (relayStream (StreamEvent.chainStart :: rest) "").2 = contentsConcat rest := by
    rw [relayStream_eq]
    exact strEmpty_append _
  refine ⟨?_, ?_, hmod.2, hmod.1, ?_, ?_⟩
  · simp [chat_socket_turn, relayStream_eq, streamOuts, eventOut]
  · intro hnil
    rw [hnil] at hmod
    exact hne (hmod.1.symm)
  · rw [List.filter_append, streamOuts_no_end rest]
    rfl
  · simp only [chat_socket_turn, hacc]
    rw [if_neg hne]
    rfl

/-- Witness for C6 at a concrete two-token turn for question "hi". -/
theorem successful_turn_protocol_witness :
    (chat_socket_turn true "hi" (TurnOutcome.completes
        [StreamEvent.chainStart, StreamEvent.modelStream "Hel",
         StreamEvent.modelStream "lo"])).saved
      = [ChatMessage.mk "user" "hi", ChatMessage.mk "assistant" "Hello"] := by
  have h := (successful_turn_protocol "hi"
    [StreamEvent.modelStream "Hel", StreamEvent.modelStream "lo"]
    (by decide) (by decide)).2.2.2.2.2
  exact h.trans (by decide)

/-- Boolean test that a turn persisted an assistant Message. -/
def assistantSaved (r : TurnResult) : Bool :=
  r.saved.any (fun m => m.role == "assistant")

/-- C10 counterexample: the claim as stated (an assistant Message is
persisted if and only if the accumulated streamed answer text is non-empty)
is false at a turn whose stream yields the token "partial" and then raises:
the accumulated text is non-empty, yet no assistant Message is written. -/
theorem assistant_persistence_iff_cex :
    accumulatedAnswer
        (TurnOutcome.raises [StreamEvent.modelStream "partial"] "boom") ≠ "" ∧
    assistantSaved (chat_socket_turn true "q"
        (TurnOutcome.raises [StreamEvent.modelStream "partial"] "boom")) = false := by
  decide

/-- C10 amended: an assistant Message is persisted on a turn exactly when
the stream completed without raising AND the accumulated streamed answer
text is non-empty; in particular error turns (including the rate-limit
advisory path) and turns streaming no content persist no assistant Message,
even though the client still receives events. -/
theorem assistant_persistence_iff (conversationFound : Bool) (query : String)
    (outcome : TurnOutcome) :
    assistantSaved (chat_socket_turn conversationFound query outcome) = true ↔
      ((∃ events, outcome = TurnOutcome.completes events) ∧
        accumulatedAnswer outcome ≠ "") := by
  cases outcome with
  | completes events =>
    by_cases hacc : (relayStream events "").2 = ""
    · simp [chat_socket_turn, assistantSaved, accumulatedAnswer, hacc]
    · constructor
      · intro _
        exact ⟨⟨events, rfl⟩, by simpa [accumulatedAnswer] using hacc⟩
      · intro _
        cases conversationFound <;>
          simp [chat_socket_turn, assistantSaved, hacc, List.any_append]
  | raises events msg =>
    constructor
    · intro h
      exfalso
      cases conversationFound <;> simp [chat_socket_turn, assistantSaved] at h
    · rintro ⟨⟨events2, hev⟩, -⟩
      exact absurd hev (by simp)

/-! ## Ingestion (`src/Backend/app/core/rag_engine.py`)

`process_pdf` loads per-page text via the external PDF loader, keeps the
pages whose content is non-blank, falls back to OCR when that set is empty,
splits the pages into chunks and indexes them.  The external loader, the
OCR engine and the vector store are parameters. -/

/-- A page or chunk as carried through the pipeline: content plus page
metadata, the relevant part of a langchain `Document`. -/
structure PageDoc where
  page_content : String
  page : Nat
  deriving Repr, DecidableEq

/-- Python falsiness of `text.strip()`: the text is all whitespace. -/
def strBlank (s : String) : Bool :=
  s.data.all Char.isWhitespace

/-- The pages kept by the OCR fallback: the recognised texts, enumerated as
the source enumerates the page images, keeping exactly the pages whose
recognised text is non-blank, with 1-based page metadata. -/
def ocrKept (texts : List String) : List PageDoc :=
  ((texts.enum).filter (fun p => !(strBlank p.2))).map
    (fun p => PageDoc.mk p.2 (p.1 + 1))

/-- `extract_text_with_ocr`.  `ocrTexts` is the outcome of rendering the
pages to images and running recognition on each: the recognised text per
page, or the text of the exception the conversion or recognition raised. -/
def extract_text_with_ocr (ocrTexts : Except String (List String)) :
    Except String (List PageDoc) :=
  match ocrTexts with
  | Except.error e =>
      Except.error ("OCR extraction failed: " ++ e ++
        ". Make sure Tesseract OCR and Poppler are installed.")
  | Except.ok texts => Except.ok (ocrKept texts)

/-- The `text_documents` list after the direct pass of `process_pdf`: the
loader pages whose content is non-blank. -/
def directKept (direct : List PageDoc) : List PageDoc :=
  direct.filter (fun d => !(strBlank d.page_content))

/-- The extraction phase of `process_pdf` (its first three statements and
the two guards): direct per-page extraction, the OCR fallback when the
direct page set is entirely empty, and failure when both yield nothing. -/
def extractPages (direct : List PageDoc) (ocrTexts : Except String (List String)) :
    Except String (List PageDoc) :=
  if (directKept direct).isEmpty then
    match extract_text_with_ocr ocrTexts with
    | Except.error e =>
        Except.error ("PDF has no extractable text and OCR failed: " ++ e)
    | Except.ok ocrDocs =>
        if ocrDocs.isEmpty then
          Except.error
            "Could not extract any text from PDF (tried both regular extraction and OCR)"
        else Except.ok ocrDocs
  else Except.ok (directKept direct)

/-- Modelled from the spec: the Chunker is the external langchain
RecursiveCharacterTextSplitter, whose algorithm is not repository code;
`process_pdf` only configures it with chunk size 400, overlap 80 and the
separator priority list.  Following sections 3, 4.2 and 8 of the spec
(fixed-size segments of at most 400 characters, adjacent segments sharing
80 characters of overlap), the model emits 400-character windows advancing
by 320 characters; the separator-priority choice of the break position is
abstracted to the final character-boundary fallback.  `fuel` bounds the
recursion and is instantiated with the text length, which always
suffices. -/
def chunkTextAux : Nat → List Char → List (List Char)
  | 0, s => [s]
  | fuel + 1, s =>
      if s.length ≤ 400 then [s]
      else s.take 400 :: chunkTextAux fuel (s.drop 320)

/-- Modelled from the spec: the Chunker applied to one text (see
`chunkTextAux`). -/
def chunkText (s : List Char) : List (List Char) :=
  chunkTextAux s.length s

/-- `split_documents`: each page is split on its own; chunks keep the page
metadata of their source page. -/
def splitDocuments : List PageDoc → List PageDoc
  | [] => []
  | d :: ds =>
      (chunkText d.page_content.data).map (fun cs => PageDoc.mk (String.mk cs) d.page)
        ++ splitDocuments ds

/-- `process_pdf`: extraction, chunking, the empty-chunks guard, indexing
into the vector store (`index`, which may fail), and the summary string the
function returns on success. -/
def process_pdf (direct : List PageDoc) (ocrTexts : Except String (List String))
    (index : List PageDoc → Except String Unit) : Except String String :=
  match extractPages direct ocrTexts with
  | Except.error e => Except.error e
  | Except.ok pages =>
      if (splitDocuments pages).isEmpty then
        Except.error "Could not extract any text chunks from the PDF"
      else
        match index (splitDocuments pages) with
        | Except.error e => Except.error e
        | Except.ok _ =>
            Except.ok ("Successfully processed " ++
              toString (splitDocuments pages).length ++ " text chunks")

/-- The chunks a successful run of `process_pdf` indexes. -/
def indexedChunks (direct : List PageDoc) (ocrTexts : Except String (List String)) :
    List PageDoc :=
  match extractPages direct ocrTexts with
  | Except.ok pages => splitDocuments pages
  | Except.error _ => []

/-- A Python value, used to state the shape of what the ingestion entry
point returns. -/
inductive PyLeaf where
  | pstr (s : String)
  | pint (n : Int)
  deriving Repr, DecidableEq

/-- A Python value or a flat dictionary of values. -/
inductive PyValue where
  | leaf (v : PyLeaf)
  | pdict (entries : List (String × PyLeaf))
  deriving Repr, DecidableEq

/-- The Python value a successful `process_pdf` call returns: the summary
string itself (`return f"Successfully processed ..."`). -/
def process_pdf_value (direct : List PageDoc) (ocrTexts : Except String (List String))
    (index : List PageDoc → Except String Unit) : Except String PyValue :=
  (process_pdf direct ocrTexts index).map (fun s => PyValue.leaf (PyLeaf.pstr s))

/-- Modelled from the spec: the claimed summary shape
`summary\x7bchunks_indexed: int\x7d` of section 6 — a dictionary carrying the
indexed-chunk count under the key `chunks_indexed` as an integer. -/
def carriesChunksIndexedInt (v : PyValue) (n : Int) : Bool :=
  match v with
  | PyValue.pdict entries =>
      entries.any (fun kv => kv.1 == "chunks_indexed" && kv.2 == PyLeaf.pint n)
  | PyValue.leaf _ => false

/-! ## Claims C7, C8, C9 -/

/-- The empty string is blank. -/
theorem strBlank_empty : strBlank "" = true := rfl

/-- Every page the OCR fallback keeps has non-blank, hence non-empty,
recognised text. -/
theorem ocrKept_nonblank (texts : List String) :
    ∀ d ∈ ocrKept texts, strBlank d.page_content = false ∧ d.page_content ≠ "" := by
  intro d hd
  rcases List.mem_map.mp hd with ⟨p, hp, hpd⟩
  have hfil := (List.mem_filter.mp hp).2
  have hblank : strBlank p.2 = false := by
    cases hsb : strBlank p.2 with
    | false => rfl
    | true => rw [hsb] at hfil; exact absurd hfil (by decide)
  have hcontent : d.page_content = p.2 := by rw [← hpd]
  refine ⟨by rw [hcontent]; exact hblank, ?_⟩
  rw [hcontent]
  intro hemp
  rw [hemp, strBlank_empty] at hblank
  exact absurd hblank (by decide)

/-- C7: extraction is two-tier.  (1) When the direct per-page pass keeps at
least one page, the result is exactly those pages and the OCR outcome is
never consulted.  (2) When the direct pass keeps nothing, the OCR fallback
runs; it keeps exactly the pages with non-blank (hence non-empty)
recognised text, and if that set is empty extraction fails with the
extraction error rather than returning an empty result.  (3) When the
direct pass keeps nothing and OCR itself fails, extraction fails. -/
theorem extractor_two_tier (direct : List PageDoc)
    (ocrTexts : Except String (List String)) :
    (directKept direct ≠ [] →
      extractPages direct ocrTexts = Except.ok (directKept direct) ∧
      (∀ o2, extractPages direct ocrTexts = extractPages direct o2)) ∧
    (directKept direct = [] →
      (∀ texts, ocrTexts = Except.ok texts →
        extract_text_with_ocr ocrTexts = Except.ok (ocrKept texts) ∧
        (∀ d ∈ ocrKept texts, d.page_content ≠ "") ∧
        extractPages direct ocrTexts =
          (if (ocrKept texts).isEmpty then
            Except.error
              "Could not extract any text from PDF (tried both regular extraction and OCR)"
          else Except.ok (ocrKept texts))) ∧
      (∀ e, ocrTexts = Except.error e →
        extractPages direct ocrTexts =
          Except.error ("PDF has no extractable text and OCR failed: " ++
            ("OCR extraction failed: " ++ e ++
              ". Make sure Tesseract OCR and Poppler are installed.")))) := by
  constructor
  · intro hne
    have hnotempty : (directKept direct).isEmpty = false := by
      cases hie : (directKept direct).isEmpty with
      | false => rfl
      | true => exact absurd (List.isEmpty_iff.mp hie) hne
    constructor
    · simp [extractPages, hnotempty]
    · intro o2
      simp [extractPages, hnotempty]
  · intro hemp
    have hisempty : (directKept direct).isEmpty = true := by
      rw [hemp]; rfl
    constructor
    · intro texts hok
      subst hok
      refine ⟨rfl, fun d hd => (ocrKept_nonblank texts d hd).2, ?_⟩
      simp [extractPages, hisempty, extract_text_with_ocr]
    · intro e herr
      subst herr
      simp [extractPages, hisempty, extract_text_with_ocr]

/-- Witness for C7: a text-bearing page skips OCR; a blank page falls back
to OCR which keeps only the non-blank recognised page. -/
theorem extractor_two_tier_witness :
    extractPages [PageDoc.mk "text" 0] (Except.error "no ocr")
        = Except.ok [PageDoc.mk "text" 0] ∧
    extractPages [PageDoc.mk " " 0] (Except.ok ["scan", ""])
        = Except.ok [PageDoc.mk "scan" 1] ∧
    extractPages [PageDoc.mk " " 0] (Except.ok [" ", ""])
        = Except.error
            "Could not extract any text from PDF (tried both regular extraction and OCR)" := by
  refine ⟨((extractor_two_tier [PageDoc.mk "text" 0] (Except.error "no ocr")).1
      (by decide)).1, ?_, ?_⟩
  · exact ((((extractor_two_tier [PageDoc.mk " " 0] (Except.ok ["scan", ""])).2
      (by decide)).1 ["scan", ""] rfl).2.2).trans (by rfl)
  · exact ((((extractor_two_tier [PageDoc.mk " " 0] (Except.ok [" ", ""])).2
      (by decide)).1 [" ", ""] rfl).2.2).trans (by rfl)

/-- C8 counterexample: on a successfully ingested one-chunk document the
ingestion entry point returns the bare summary string; the returned value
is not a dictionary and carries no `chunks_indexed` integer field, so the
claim that the summary carries the indexed-chunk count as an integer is
false at this input. -/
theorem ingestion_summary_no_int_cex :
    process_pdf_value [PageDoc.mk "hello world" 0] (Except.error "x")
        (fun _ => Except.ok ())
      = Except.ok (PyValue.leaf (PyLeaf.pstr "Successfully processed 1 text chunks")) ∧
    carriesChunksIndexedInt
        (PyValue.leaf (PyLeaf.pstr "Successfully processed 1 text chunks")) 1 = false := by
  exact ⟨rfl, rfl⟩

/-- C8 amended: on every successful ingestion the entry point returns the
summary as the single string exact-matching
"Successfully processed \x7bN\x7d text chunks" with N the number of indexed
chunks (which is positive); the count appears only inside that message, and
the returned value carries no integer field. -/
theorem ingestion_summary_message (direct : List PageDoc)
    (ocrTexts : Except String (List String))
    (index : List PageDoc → Except String Unit) (s : String)
    (h : process_pdf direct ocrTexts index = Except.ok s) :
    s = "Successfully processed " ++ toString (indexedChunks direct ocrTexts).length ++
        " text chunks" ∧
    0 < (indexedChunks direct ocrTexts).length ∧
    process_pdf_value direct ocrTexts index
      = Except.ok (PyValue.leaf (PyLeaf.pstr s)) ∧
    carriesChunksIndexedInt (PyValue.leaf (PyLeaf.pstr s))
        (indexedChunks direct ocrTexts).length = false := by
  have hval : process_pdf_value direct ocrTexts index
      = Except.ok (PyValue.leaf (PyLeaf.pstr s)) := by
    rw [process_pdf_value, h]
    rfl
  unfold process_pdf at h
  split at h
  next e heq => exact absurd h (by simp)
  next pages heq =>
    have hic : indexedChunks direct ocrTexts = splitDocuments pages := by
      unfold indexedChunks
      rw [heq]
    rw [hic]
    split at h
    next hie => exact absurd h (by simp)
    next hie =>
      split at h
      next e2 heq2 => exact absurd h (by simp)
      next u heq2 =>
        simp only [Except.ok.injEq] at h
        refine ⟨h.symm, ?_, hval, rfl⟩
        have hnil : splitDocuments pages ≠ [] := by
          intro hn
          rw [hn] at hie
          exact hie rfl
        exact List.length_pos.mpr hnil

/-- Witness for C8 at a concrete successful one-chunk ingestion. -/
theorem ingestion_summary_message_witness :
    "Successfully processed 1 text chunks"
      = "Successfully processed " ++
          toString (indexedChunks [PageDoc.mk "hello world" 0] (Except.error "x")).length ++
          " text chunks" ∧
    0 < (indexedChunks [PageDoc.mk "hello world" 0] (Except.error "x")).length ∧
    process_pdf_value [PageDoc.mk "hello world" 0] (Except.error "x") (fun _ => Except.ok ())
      = Except.ok (PyValue.leaf (PyLeaf.pstr "Successfully processed 1 text chunks")) ∧
    carriesChunksIndexedInt
        (PyValue.leaf (PyLeaf.pstr "Successfully processed 1 text chunks"))
        (indexedChunks [PageDoc.mk "hello world" 0] (Except.error "x")).length = false :=
  ingestion_summary_message [PageDoc.mk "hello world" 0] (Except.error "x")
    (fun _ => Except.ok ()) "Successfully processed 1 text chunks" rfl

/-- With sufficient fuel, every chunk the Chunker model emits has at most
400 characters. -/
theorem chunkTextAux_length_le (fuel : Nat) : ∀ (s : List Char),
    s.length ≤ 320 * fuel + 400 → ∀ c ∈ chunkTextAux fuel s, c.length ≤ 400 := by
  induction fuel with
  | zero =>
    intro s h c hc
    simp only [chunkTextAux, List.mem_singleton] at hc
    subst hc
    omega
  | succ fuel ih =>
    intro s h c hc
    by_cases hlen : s.length ≤ 400
    · rw [chunkTextAux, if_pos hlen] at hc
      simp only [List.mem_singleton] at hc
      subst hc
      exact hlen
    · rw [chunkTextAux, if_neg hlen] at hc
      rcases List.mem_cons.mp hc with hc | hc
      · subst hc
        rw [List.length_take]
        omega
      · exact ih (s.drop 320) (by rw [List.length_drop]; omega) c hc

/-- With sufficient fuel, the first chunk the Chunker model emits is the
400-character (or shorter, for a short text) initial window. -/
theorem chunkTextAux_head (fuel : Nat) (s : List Char)
    (h : s.length ≤ 320 * fuel + 400) :
    ∃ rest, chunkTextAux fuel s = s.take 400 :: rest := by
  cases fuel with
  | zero =>
    refine ⟨[], ?_⟩
    rw [chunkTextAux, List.take_of_length_le (by omega)]
  | succ fuel =>
    by_cases hlen : s.length ≤ 400
    · exact ⟨[], by rw [chunkTextAux, if_pos hlen, List.take_of_length_le hlen]⟩
    · exact ⟨chunkTextAux fuel (s.drop 320), by rw [chunkTextAux, if_neg hlen]⟩

/-- With sufficient fuel, every adjacent pair of chunks the Chunker model
emits overlaps: the earlier chunk is a full 400-character window whose last
80 characters are exactly the first 80 characters of the later chunk, and
the later chunk has at least 80 characters. -/
theorem chunkTextAux_adjacent (fuel : Nat) : ∀ (s : List Char)
    (pre : List (List Char)) (post : List (List Char)) (a b : List Char),
    s.length ≤ 320 * fuel + 400 →
    chunkTextAux fuel s = pre ++ a :: b :: post →
    a.length = 400 ∧ a.drop 320 = b.take 80 ∧ 80 ≤ b.length := by
  induction fuel with
  | zero =>
    intro s pre post a b h heq
    exfalso
    have hl := congrArg List.length heq
    simp [chunkTextAux] at hl
    omega
  | succ fuel ih =>
    intro s pre post a b h heq
    by_cases hlen : s.length ≤ 400
    · exfalso
      rw [chunkTextAux, if_pos hlen] at heq
      have hl := congrArg List.length heq
      simp at hl
      omega
    · rw [chunkTextAux, if_neg hlen] at heq
      cases pre with
      | nil =>
        simp only [List.nil_append, List.cons.injEq] at heq
        obtain ⟨ha, hrest⟩ := heq
        obtain ⟨rest2, hhead⟩ :=
          chunkTextAux_head fuel (s.drop 320) (by rw [List.length_drop]; omega)
        rw [hhead] at hrest
        simp only [List.cons.injEq] at hrest
        have hb : b = (s.drop 320).take 400 := hrest.1.symm
        subst ha
        refine ⟨?_, ?_, ?_⟩
        · rw [List.length_take]; omega
        · rw [hb, List.drop_take, List.take_take]
          norm_num
        · rw [hb, List.length_take, List.length_drop]; omega
      | cons p pre2 =>
        simp only [List.cons_append, List.cons.injEq] at heq
        exact ih (s.drop 320) pre2 post a b (by rw [List.length_drop]; omega) heq.2

/-- C9: for the spec-modelled Chunker, every chunk of every chunk sequence
has at most 400 characters (in particular every non-final chunk), and every
adjacent pair of chunks shares 80 characters of content: the last 80
characters of the earlier chunk are exactly the first 80 characters of the
later chunk, a shared segment of length exactly 80 (the source is always
long enough at a chunk boundary to permit it). -/
theorem chunker_size_and_overlap (s : List Char) :
    (∀ c ∈ chunkText s, c.length ≤ 400) ∧
    (∀ pre post a b, chunkText s = pre ++ a :: b :: post →
      a.length = 400 ∧ a.drop 320 = b.take 80 ∧
      (a.drop 320).length = 80 ∧ 80 ≤ b.length) := by
  have hfuel : s.length ≤ 320 * s.length + 400 := by omega
  constructor
  · exact chunkTextAux_length_le s.length s hfuel
  · intro pre post a b heq
    obtain ⟨h1, h2, h3⟩ := chunkTextAux_adjacent s.length s pre post a b hfuel heq
    refine ⟨h1, h2, ?_, h3⟩
    rw [List.length_drop, h1]

set_option maxRecDepth 10000 in
/-- Witness for C9 on a 500-character text: two chunks of 400 and 180
characters sharing an 80-character overlap. -/
theorem chunker_size_and_overlap_witness :
    (List.replicate 400 'a').length = 400 ∧
    (List.replicate 400 'a').drop 320 = (List.replicate 180 'a').take 80 ∧
    ((List.replicate 400 'a').drop 320).length = 80 ∧
    80 ≤ (List.replicate 180 'a').length :=
  (chunker_size_and_overlap (List.replicate 500 'a')).2 [] []
    (List.replicate 400 'a') (List.replicate 180 'a') (by decide)
